import Mathlib

/-!
Verification development for the multi-PACS reconciliation script
(multi_pacs_query17_exclude_en.py).  The Python source is shallowly
embedded: pure helpers become Lean functions, the network boundary
(pynetdicom associations and C-FIND responses) is made explicit as
function arguments (an `established` flag and a list of raw response
identifiers), and Python dictionaries become association lists where a
later binding for the same key overwrites an earlier one.
-/

/-- Python truthiness of an optional string: `None` and the empty string
are falsy, every other string is truthy. -/
def pyTruthyStr : Option String → Bool
  | none => false
  | some s => !s.isEmpty

/-- Python truthiness of an optional list: `None` and `[]` are falsy. -/
def optListTruthy : Option (List String) → Bool
  | none => false
  | some l => !l.isEmpty

/-- Python str.upper as used on modality codes: upper-case each
character (all real modality codes are ASCII, where Char.toUpper matches
Python exactly).  Defined by structural recursion over the character
list so that it evaluates inside the kernel. -/
def pyUpper (s : String) : String :=
  String.mk (s.data.map Char.toUpper)

/-- Embedding of `modality_list_intersects` (source lines 158-161):
case-insensitive non-disjointness of the two upper-cased sets. -/
def modality_list_intersects (modality_list check_list : List String) : Bool :=
  modality_list.any (fun m => check_list.any (fun c => pyUpper m == pyUpper c))

/-- Embedding of `modality_list_excludes` (source lines 164-165). -/
def modality_list_excludes (modality_list exclude_list : List String) : Bool :=
  modality_list_intersects modality_list exclude_list

/-- Embedding of `filter_study` (source lines 168-174).  The include and
exclude lists are `Option`s because Python allows `None` there; `main`
always passes actual lists (argparse defaults to `["NONE"]`). -/
def filter_study (study_modalities : List String)
    (modality_include modality_exclude : Option (List String)) : Bool :=
  if optListTruthy modality_exclude && modality_exclude != some ["NONE"]
      && modality_list_excludes study_modalities (modality_exclude.getD []) then
    false
  else if modality_include == (none : Option (List String)) || modality_include == some [] ||
      modality_include == some ["NONE"] || modality_include == some ["*"] then
    true
  else
    modality_list_intersects study_modalities (modality_include.getD [])

/-- Case-insensitive intersection, stated as a proposition in the words of
the specification: some modality of the first list equals, after
upper-casing, some modality of the second. -/
def ciIntersects (a b : List String) : Prop :=
  ∃ m, m ∈ a ∧ ∃ c, c ∈ b ∧ pyUpper m = pyUpper c

theorem modality_list_intersects_iff (a b : List String) :
    modality_list_intersects a b = true ↔ ciIntersects a b := by
  simp [modality_list_intersects, ciIntersects, List.any_eq_true]

/-- Claim C1: the filter policy fails the study exactly when the exclude
list is truthy, is not the `["NONE"]` sentinel, and the modality set
intersects it case-insensitively; otherwise the study passes when the
include list is unset, empty, `["NONE"]` or `["*"]`, and otherwise passes
iff the modality set intersects the include list case-insensitively.
Exclusion is checked first and vetoes unconditionally. -/
theorem c1_filter_policy (sm : List String) (inc exc : Option (List String)) :
    filter_study sm inc exc = true ↔
      ((optListTruthy exc = true ∧ exc ≠ some ["NONE"]) → ¬ ciIntersects sm (exc.getD []))
      ∧ ((inc = none ∨ inc = some [] ∨ inc = some ["NONE"] ∨ inc = some ["*"])
         ∨ ciIntersects sm (inc.getD [])) := by
  unfold filter_study modality_list_excludes
  by_cases hex : optListTruthy exc = true ∧ exc ≠ some ["NONE"]
  · by_cases hi : ciIntersects sm (exc.getD [])
    · have hb : (optListTruthy exc && exc != some ["NONE"]
          && modality_list_intersects sm (exc.getD [])) = true := by
        simp [Bool.and_eq_true, bne_iff_ne, hex.1, hex.2,
          (modality_list_intersects_iff sm (exc.getD [])).2 hi]
      rw [if_pos hb]
      constructor
      · intro h
        exact Bool.noConfusion h
      · rintro ⟨h1, _⟩
        exact absurd hi (h1 hex)
    · have hb : (optListTruthy exc && exc != some ["NONE"]
          && modality_list_intersects sm (exc.getD [])) = false := by
        have : modality_list_intersects sm (exc.getD []) = false := by
          cases hmi : modality_list_intersects sm (exc.getD []) with
          | false => rfl
          | true => exact absurd ((modality_list_intersects_iff _ _).1 hmi) hi
        simp [this]
      rw [if_neg (by simp [hb])]
      by_cases hsent : inc = none ∨ inc = some [] ∨ inc = some ["NONE"] ∨ inc = some ["*"]
      · have hbs : (inc == (none : Option (List String)) || inc == some [] ||
            inc == some ["NONE"] || inc == some ["*"]) = true := by
          rcases hsent with h | h | h | h <;> simp [h]
        rw [if_pos hbs]
        exact ⟨fun _ => ⟨fun _ => hi, Or.inl hsent⟩, fun _ => rfl⟩
      · have hbs : (inc == (none : Option (List String)) || inc == some [] ||
            inc == some ["NONE"] || inc == some ["*"]) = false := by
          simp only [not_or] at hsent
          simp [hsent.1, hsent.2.1, hsent.2.2.1, hsent.2.2.2]
        rw [if_neg (by simp [hbs])]
        rw [modality_list_intersects_iff]
        constructor
        · intro h
          exact ⟨fun _ => hi, Or.inr h⟩
        · rintro ⟨_, h | h⟩
          · exact absurd h hsent
          · exact h
  · have hb : (optListTruthy exc && exc != some ["NONE"]
        && modality_list_intersects sm (exc.getD [])) = false := by
      rcases not_and_or.1 hex with h | h
      · simp [Bool.eq_false_iff.2 (fun hc => h hc)]
      · push_neg at h
        simp [h]
    rw [if_neg (by simp [hb])]
    by_cases hsent : inc = none ∨ inc = some [] ∨ inc = some ["NONE"] ∨ inc = some ["*"]
    · have hbs : (inc == (none : Option (List String)) || inc == some [] ||
          inc == some ["NONE"] || inc == some ["*"]) = true := by
        rcases hsent with h | h | h | h <;> simp [h]
      rw [if_pos hbs]
      exact ⟨fun _ => ⟨fun hc => absurd hc hex, Or.inl hsent⟩, fun _ => rfl⟩
    · have hbs : (inc == (none : Option (List String)) || inc == some [] ||
          inc == some ["NONE"] || inc == some ["*"]) = false := by
        simp only [not_or] at hsent
        simp [hsent.1, hsent.2.1, hsent.2.2.1, hsent.2.2.2]
      rw [if_neg (by simp [hbs])]
      rw [modality_list_intersects_iff]
      constructor
      · intro h
        exact ⟨fun hc => absurd hc hex, Or.inr h⟩
      · rintro ⟨_, h | h⟩
        · exact absurd h hsent
        · exact h

/-!
Date partitioner (`query_server_with_4h_blocks`, source lines 138-155).
Times are modelled in whole seconds of the day, matching the granularity
of the StudyTime range actually placed on the wire (strftime "%H%M%S").
The probe query carries no StudyTime at all (its window is exactly
day start 00:00:00.000000 to day end 23:59:59.999999), so it is a
distinguished window value.  The clamping comparison block_end > day_end
never fires for blocks 0..5 in the source (23:59:59.000000 is below
23:59:59.999999) and never fires in this seconds model either (86399 is
not greater than 86399), so the seconds model is outcome-faithful.
-/

/-- A study-level query window: the whole-day probe (no StudyTime
constraint) or an explicit second-granular time range. -/
inductive QWindow where
  | wholeDay : QWindow
  | timed (startSec endSec : Nat) : QWindow
deriving DecidableEq, Repr

/-- Last second of the day, 23:59:59. -/
def daySecs : Nat := 86399

/-- Bounds of 4-hour block `i`: start at `4*i` hours, end 3:59:59 later,
clamped to the end of the day (source lines 149-152). -/
def blockBounds (i : Nat) : Nat × Nat :=
  let s := 14400 * i
  let e := s + 14399
  (s, if daySecs < e then daySecs else e)

/-- Embedding of `query_server_with_4h_blocks`: `q` is the study-level
query (one invocation per window); the result pairs the list of windows
actually queried, in order, with the returned study list. -/
def query_server_with_4h_blocks {α : Type} (q : QWindow → List α) :
    List QWindow × List α :=
  let probe_results := q QWindow.wholeDay
  if probe_results.length < 500 then
    ([QWindow.wholeDay], probe_results)
  else
    (List.range 6).foldl
      (fun acc i =>
        let b := blockBounds i
        (acc.1 ++ [QWindow.timed b.1 b.2], acc.2 ++ q (QWindow.timed b.1 b.2)))
      ([QWindow.wholeDay], [])

/-- Claim C4: a probe count strictly below 500 means exactly one query
whose results are returned unchanged; a count of 500 or more means seven
queries in total (the discarded probe plus six 4-hour sub-windows) whose
results are concatenated without further recursion, and the six
sub-window spans tile the seconds 00:00:00 .. 23:59:59 of the day with
no gap and no overlap. -/
theorem c4_partitioner {α : Type} (q : QWindow → List α) :
    ((q QWindow.wholeDay).length < 500 →
      query_server_with_4h_blocks q = ([QWindow.wholeDay], q QWindow.wholeDay))
    ∧ (500 ≤ (q QWindow.wholeDay).length →
      (query_server_with_4h_blocks q).1 =
        [QWindow.wholeDay, QWindow.timed 0 14399, QWindow.timed 14400 28799,
         QWindow.timed 28800 43199, QWindow.timed 43200 57599,
         QWindow.timed 57600 71999, QWindow.timed 72000 86399]
      ∧ (query_server_with_4h_blocks q).2 =
        q (QWindow.timed 0 14399) ++ q (QWindow.timed 14400 28799) ++
        q (QWindow.timed 28800 43199) ++ q (QWindow.timed 43200 57599) ++
        q (QWindow.timed 57600 71999) ++ q (QWindow.timed 72000 86399))
    ∧ (∀ t : Nat, t ≤ daySecs →
      ∃! i : Nat, i < 6 ∧ (blockBounds i).1 ≤ t ∧ t ≤ (blockBounds i).2) := by
  refine ⟨?_, ?_, ?_⟩
  · intro h
    simp [query_server_with_4h_blocks, h]
  · intro h
    have hn : ¬ (q QWindow.wholeDay).length < 500 := by omega
    have hrange : List.range 6 = [0, 1, 2, 3, 4, 5] := by rfl
    constructor
    · simp only [query_server_with_4h_blocks, if_neg hn, hrange, List.foldl]
      rfl
    · simp only [query_server_with_4h_blocks, if_neg hn, hrange, List.foldl]
      show [] ++ q (QWindow.timed (blockBounds 0).1 (blockBounds 0).2) ++ _ ++ _ ++ _ ++ _ ++ _ = _
      have hb0 : blockBounds 0 = (0, 14399) := by rfl
      have hb1 : blockBounds 1 = (14400, 28799) := by rfl
      have hb2 : blockBounds 2 = (28800, 43199) := by rfl
      have hb3 : blockBounds 3 = (43200, 57599) := by rfl
      have hb4 : blockBounds 4 = (57600, 71999) := by rfl
      have hb5 : blockBounds 5 = (72000, 86399) := by rfl
      rw [hb0, hb1, hb2, hb3, hb4, hb5]
      simp [List.append_assoc]
  · intro t ht
    have hbb : ∀ i : Nat, i < 6 → blockBounds i = (14400 * i, 14400 * i + 14399) := by
      decide
    refine ⟨t / 14400, ⟨?_, ?_, ?_⟩, ?_⟩
    · have : t < 6 * 14400 := by
        simp only [daySecs] at ht
        omega
      exact Nat.div_lt_of_lt_mul (by omega)
    · rw [hbb (t / 14400) (Nat.div_lt_of_lt_mul (by simp only [daySecs] at ht; omega))]
      exact Nat.mul_div_le t 14400 |>.trans_eq rfl |> fun h => by
        simpa using Nat.mul_div_le t 14400
    · rw [hbb (t / 14400) (Nat.div_lt_of_lt_mul (by simp only [daySecs] at ht; omega))]
      have hmod := Nat.div_add_mod t 14400
      have : t % 14400 < 14400 := Nat.mod_lt _ (by omega)
      omega
    · rintro i ⟨hi6, hlo, hhi⟩
      rw [hbb i hi6] at hlo hhi
      have h1 : 14400 * i ≤ t := hlo
      have h2 : t < 14400 * (i + 1) := by omega
      have := Nat.div_add_mod t 14400
      have hm : t % 14400 < 14400 := Nat.mod_lt _ (by omega)
      omega

/-!
Study-level and series-level lookups (`query_server`, source lines
35-104, and `query_study_series`, source lines 107-135).  The network is
made explicit: an `established` flag models `assoc.is_established`, and
the C-FIND responses are a list in which `none` stands for a response
whose status or identifier is falsy (source guards `if status and
identifier`).  A count attribute is `Option (Option Int)`: `none` when
the attribute is absent (getattr returns None), `some none` when it is
present but int() raises, `some (some n)` when it parses to `n`.
-/

/-- Raw study-level C-FIND response identifier. -/
structure RawStudyIdentifier where
  StudyInstanceUID : Option String
  NumberOfStudyRelatedInstances : Option (Option Int)
  NumberOfStudyRelatedSeries : Option (Option Int)
  StudyDate : Option String
  AccessionNumber : Option String
  ModalitiesInStudy : List String
deriving DecidableEq, Repr

/-- Coercion of a count attribute as done in source lines 74-81: absent
becomes 0, non-numeric raises and is caught as 0, numeric is kept. -/
def coerceCount : Option (Option Int) → Int
  | none => 0
  | some none => 0
  | some (some n) => n

/-- One element of the list built by `query_server` (source lines 93-102). -/
structure StudyRes where
  StudyDate : Option String
  StudyInstanceUID : Option String
  NumberOfStudyRelatedInstances : Int
  NumberOfStudyRelatedSeries : Int
  AccessionNumber : Option String
  ModalityList : List String
deriving DecidableEq, Repr

/-- Embedding of `query_server`: no association means an empty result
list; otherwise each response with truthy status and identifier yields
one record with counts coerced by `coerceCount`. -/
def query_server (established : Bool)
    (responses : List (Option RawStudyIdentifier)) : List StudyRes :=
  if established then
    responses.filterMap (fun r =>
      match r with
      | none => none
      | some idr => some
          { StudyDate := idr.StudyDate
            StudyInstanceUID := idr.StudyInstanceUID
            NumberOfStudyRelatedInstances := coerceCount idr.NumberOfStudyRelatedInstances
            NumberOfStudyRelatedSeries := coerceCount idr.NumberOfStudyRelatedSeries
            AccessionNumber := idr.AccessionNumber
            ModalityList := idr.ModalitiesInStudy })
  else []

/-- Raw series-level C-FIND response identifier. -/
structure RawSeriesIdentifier where
  SeriesInstanceUID : Option String
  Modality : Option String
deriving DecidableEq, Repr

/-- Body of the response loop of `query_study_series` (source lines
128-133): a response with falsy status or identifier yields nothing, and
a series is kept only when both SeriesInstanceUID and Modality are
truthy (present and non-empty, source line 132). -/
def seriesKeep (r : Option RawSeriesIdentifier) : Option (String × String) :=
  match r with
  | none => none
  | some idr =>
    match idr.SeriesInstanceUID, idr.Modality with
    | some u, some m => if !u.isEmpty && !m.isEmpty then some (u, m) else none
    | some _, none => none
    | none, _ => none

/-- Embedding of `query_study_series`: no association means an empty
series list; otherwise the kept responses in order. -/
def query_study_series (established : Bool)
    (responses : List (Option RawSeriesIdentifier)) : List (String × String) :=
  if established then responses.filterMap seriesKeep
  else []

/-- Per-study view stored in a per-source day inventory (the dict built
at source lines 190-198).  StudyDate and AccessionNumber stay optional
because dict.get returns the stored value even when it is None; the CSV
writer later renders None as the empty string. -/
structure StudyEntry where
  SeriesCount : Int
  ImagesCount : Int
  SeriesList : List (String × String)
  StudyDate : Option String
  AccessionNumber : Option String
  Modalities : List String
  SourceServerAET : String
deriving DecidableEq, Repr

/-- Entry built for one surviving study record (source lines 190-198). -/
def mkEntry (aet : String) (study : StudyRes)
    (series_list : List (String × String)) : StudyEntry :=
  { SeriesCount := study.NumberOfStudyRelatedSeries
    ImagesCount := study.NumberOfStudyRelatedInstances
    SeriesList := series_list
    StudyDate := study.StudyDate
    AccessionNumber := study.AccessionNumber
    Modalities := study.ModalityList
    SourceServerAET := aet }

/-- Lookup in a Python-dict model: the value of the last binding for the
key wins, mirroring assignment overwrite. -/
def dictGet {α : Type} (l : List (String × α)) (k : String) : Option α :=
  ((l.filter (fun p => p.1 == k)).getLast?).map (fun p => p.2)

/-- Worker for `process_server` (source lines 177-199): walk the study
records of the day; a record whose StudyInstanceUID is falsy is skipped;
otherwise one series-level lookup is issued (the oracle `f` takes the
running network-call index so that distinct calls are distinguishable)
and the dict binding for that uid is written.  Returns the bindings in
write order together with the issued (call index, uid) lookups. -/
def process_server_go (aet : String)
    (f : Nat → String → List (String × String)) :
    List StudyRes → Nat → List (String × StudyEntry) × List (Nat × String)
  | [], _ => ([], [])
  | study :: rest, n =>
    if pyTruthyStr study.StudyInstanceUID then
      let uid := study.StudyInstanceUID.getD ""
      let series_list := f n uid
      let next := process_server_go aet f rest (n + 1)
      ((uid, mkEntry aet study series_list) :: next.1, (n, uid) :: next.2)
    else
      process_server_go aet f rest n

/-- Embedding of `process_server`: the study records for the day (as
produced by `query_server_with_4h_blocks`) are folded into a per-source
inventory dict, starting at network-call index 0. -/
def process_server (aet : String) (srv_results : List StudyRes)
    (f : Nat → String → List (String × String)) :
    List (String × StudyEntry) × List (Nat × String) :=
  process_server_go aet f srv_results 0

/-- Records of the day whose StudyInstanceUID is truthy; only these
survive the `if not uid: continue` guard (source lines 184-186). -/
def validStudies (rs : List StudyRes) : List StudyRes :=
  rs.filter (fun st => pyTruthyStr st.StudyInstanceUID)

/-- Uid of a surviving record. -/
def theUid (st : StudyRes) : String :=
  st.StudyInstanceUID.getD ""

theorem process_server_go_spec (aet : String)
    (f : Nat → String → List (String × String)) (rs : List StudyRes) :
    ∀ n, process_server_go aet f rs n =
      ((List.enumFrom n (validStudies rs)).map
         (fun p => (theUid p.2, mkEntry aet p.2 (f p.1 (theUid p.2)))),
       (List.enumFrom n (validStudies rs)).map (fun p => (p.1, theUid p.2))) := by
  induction rs with
  | nil => intro n; rfl
  | cons st rest ih =>
    intro n
    cases h : pyTruthyStr st.StudyInstanceUID with
    | true =>
      simp only [process_server_go, if_pos h, validStudies, List.filter_cons, h, if_true,
        List.enumFrom_cons, List.map_cons, ih (n + 1)]
      rfl
    | false =>
      simp only [process_server_go, h, Bool.false_eq_true, if_false, validStudies,
        List.filter_cons, ite_false, ih n]

/-- Claim C9: when the study-level results of a day contain several
records with the same uid, one series-level lookup is issued per
occurrence (each with its own network-call index), and the inventory
keeps, for each uid, the entry built from the last surviving record with
that uid together with the series list returned by the lookup issued at
that occurrence. -/
theorem c9_duplicate_handling (aet : String)
    (f : Nat → String → List (String × String)) (rs : List StudyRes) :
    (process_server aet rs f).2 =
      (List.enumFrom 0 (validStudies rs)).map (fun p => (p.1, theUid p.2))
    ∧ ∀ u, dictGet (process_server aet rs f).1 u =
        (((List.enumFrom 0 (validStudies rs)).filter
            (fun p => theUid p.2 == u)).getLast?).map
          (fun p => mkEntry aet p.2 (f p.1 u)) := by
  constructor
  · rw [process_server, process_server_go_spec]
  · intro u
    rw [process_server, process_server_go_spec]
    simp only [dictGet]
    rw [List.filter_map, List.getLast?_map]
    have hfe : (List.enumFrom 0 (validStudies rs)).filter
        ((fun q : String × StudyEntry => q.1 == u) ∘ fun p : Nat × StudyRes =>
          (theUid p.2, mkEntry aet p.2 (f p.1 (theUid p.2)))) =
        (List.enumFrom 0 (validStudies rs)).filter (fun p => theUid p.2 == u) := rfl
    rw [hfe]
    cases hL : ((List.enumFrom 0 (validStudies rs)).filter
        (fun p => theUid p.2 == u)).getLast? with
    | none => rfl
    | some p =>
      have hp := List.mem_of_getLast?_eq_some hL
      have hu : theUid p.2 = u := by
        have := (List.mem_filter.1 hp).2
        simpa using this
      simp [hu]

/-- Claim C8: per-source and per-record errors never escape as
exceptions: a failed association makes the study-level and series-level
lookups return an empty list, a study record with a falsy
StudyInstanceUID is dropped without affecting anything else, and an
absent or non-numeric count attribute is coerced to zero. -/
theorem c8_error_absorption :
    (∀ responses, query_server false responses = [])
    ∧ (∀ responses, query_study_series false responses = [])
    ∧ (∀ aet f rs1 rs2 st, pyTruthyStr st.StudyInstanceUID = false →
        process_server aet (rs1 ++ st :: rs2) f = process_server aet (rs1 ++ rs2) f)
    ∧ (∀ raw : Option (Option Int), (raw = none ∨ raw = some none) →
        coerceCount raw = 0) := by
  refine ⟨fun responses => rfl, fun responses => rfl, ?_, ?_⟩
  · intro aet f rs1 rs2 st h
    rw [process_server, process_server, process_server_go_spec, process_server_go_spec]
    have hv : validStudies (rs1 ++ st :: rs2) = validStudies (rs1 ++ rs2) := by
      simp [validStudies, List.filter_append, List.filter_cons, h]
    rw [hv]
  · rintro raw (rfl | rfl) <;> rfl

def badStudyRes : StudyRes :=
  { StudyDate := none, StudyInstanceUID := some "",
    NumberOfStudyRelatedInstances := 0, NumberOfStudyRelatedSeries := 0,
    AccessionNumber := none, ModalityList := [] }

/-- Witness for C8 at concrete inputs. -/
theorem c8_error_absorption_witness :
    query_server false [] = []
    ∧ query_study_series false [] = []
    ∧ process_server "A" ([] ++ badStudyRes :: []) (fun _ _ => []) =
        process_server "A" ([] ++ []) (fun _ _ => [])
    ∧ coerceCount none = 0 :=
  ⟨c8_error_absorption.1 [], c8_error_absorption.2.1 [],
   c8_error_absorption.2.2.1 "A" (fun _ _ => []) [] [] badStudyRes (by decide),
   c8_error_absorption.2.2.2 none (Or.inl rfl)⟩

theorem seriesKeep_eq_some_iff (r : Option RawSeriesIdentifier) (u m : String) :
    seriesKeep r = some (u, m) ↔
      r = some ⟨some u, some m⟩ ∧ u ≠ "" ∧ m ≠ "" := by
  rcases r with _ | ⟨su, sm⟩
  · simp [seriesKeep]
  · rcases su with _ | u0 <;> rcases sm with _ | m0
    · simp [seriesKeep]
    · simp [seriesKeep]
    · simp [seriesKeep]
    · constructor
      · intro h
        simp only [seriesKeep] at h
        by_cases hu : u0.isEmpty
        · simp [hu] at h
        · by_cases hm : m0.isEmpty
          · simp [hu, hm] at h
          · simp only [hu, hm, Bool.not_false, Bool.and_self, if_true,
              Bool.not_true, Option.some.injEq, Prod.mk.injEq] at h
            rcases h with ⟨rfl, rfl⟩
            exact ⟨rfl, fun hc => hu ((String.isEmpty_iff _).2 hc),
              fun hc => hm ((String.isEmpty_iff _).2 hc)⟩
      · rintro ⟨heq, hu, hm⟩
        have h1 : u0 = u := by
          have := congrArg (fun x => (Option.getD (Option.map RawSeriesIdentifier.SeriesInstanceUID x) none)) heq
          simpa using this
        have h2 : m0 = m := by
          have := congrArg (fun x => (Option.getD (Option.map RawSeriesIdentifier.Modality x) none)) heq
          simpa using this
        subst h1
        subst h2
        have hu0 : u0.isEmpty = false := by
          cases hb : u0.isEmpty with
          | false => rfl
          | true => exact absurd ((String.isEmpty_iff _).1 hb) hu
        have hm0 : m0.isEmpty = false := by
          cases hb : m0.isEmpty with
          | false => rfl
          | true => exact absurd ((String.isEmpty_iff _).1 hb) hm
        simp [seriesKeep, hu0, hm0]

theorem seriesKeep_eq_none_of_falsy (idr : RawSeriesIdentifier)
    (h : pyTruthyStr idr.SeriesInstanceUID = false ∨ pyTruthyStr idr.Modality = false) :
    seriesKeep (some idr) = none := by
  rcases idr with ⟨su, sm⟩
  rcases su with _ | u0 <;> rcases sm with _ | m0
  · rfl
  · rfl
  · rfl
  · simp only [pyTruthyStr, Bool.not_eq_false] at h
    rcases h with h | h <;> simp [seriesKeep, h]

/-- Claim C10: the series-level lookup keeps a returned series exactly
when both its identifier and its modality are present and non-empty; a
response lacking either field contributes nothing at all to the series
list (so it can enter neither a reference set nor a missing-series
report built from that list). -/
theorem c10_series_field_guard :
    (∀ established responses u m,
        (u, m) ∈ query_study_series established responses → u ≠ "" ∧ m ≠ "")
    ∧ (∀ established responses u m,
        (u, m) ∈ query_study_series established responses ↔
          established = true ∧ some ⟨some u, some m⟩ ∈ responses ∧ u ≠ "" ∧ m ≠ "")
    ∧ (∀ established rs1 rs2 idr,
        (pyTruthyStr idr.SeriesInstanceUID = false ∨ pyTruthyStr idr.Modality = false) →
        query_study_series established (rs1 ++ some idr :: rs2) =
          query_study_series established (rs1 ++ rs2)) := by
  have hmem : ∀ established responses u m,
      (u, m) ∈ query_study_series established responses ↔
        established = true ∧ some ⟨some u, some m⟩ ∈ responses ∧ u ≠ "" ∧ m ≠ "" := by
    intro established responses u m
    cases established with
    | false => simp [query_study_series]
    | true =>
      rw [query_study_series, if_pos rfl]
      simp only [List.mem_filterMap, true_and]
      constructor
      · rintro ⟨r, hr, hk⟩
        rcases (seriesKeep_eq_some_iff r u m).1 hk with ⟨rfl, hu, hm⟩
        exact ⟨hr, hu, hm⟩
      · rintro ⟨hr, hu, hm⟩
        exact ⟨some ⟨some u, some m⟩, hr, (seriesKeep_eq_some_iff _ u m).2 ⟨rfl, hu, hm⟩⟩
  refine ⟨?_, hmem, ?_⟩
  · intro established responses u m h
    exact ((hmem established responses u m).1 h).2.2
  · intro established rs1 rs2 idr h
    cases established with
    | false => rfl
    | true =>
      rw [query_study_series, query_study_series, if_pos rfl, if_pos rfl]
      rw [List.filterMap_append, List.filterMap_append, List.filterMap_cons,
        seriesKeep_eq_none_of_falsy idr h]

/-- Witness for C10 at concrete inputs. -/
theorem c10_series_field_guard_witness :
    (("s1", "CT") ∈ query_study_series true [some ⟨some "s1", some "CT"⟩] →
      "s1" ≠ "" ∧ "CT" ≠ "")
    ∧ (("s1", "CT") ∈ query_study_series true [some ⟨some "s1", some "CT"⟩] ↔
        true = true ∧ some ⟨some "s1", some "CT"⟩ ∈
          ([some ⟨some "s1", some "CT"⟩] : List (Option RawSeriesIdentifier))
          ∧ "s1" ≠ "" ∧ "CT" ≠ "")
    ∧ query_study_series true ([] ++ some ⟨some "s1", none⟩ :: []) =
        query_study_series true ([] ++ []) :=
  ⟨c10_series_field_guard.1 true [some ⟨some "s1", some "CT"⟩] "s1" "CT",
   c10_series_field_guard.2.1 true [some ⟨some "s1", some "CT"⟩] "s1" "CT",
   c10_series_field_guard.2.2 true [] [] ⟨some "s1", none⟩ (Or.inr (by decide))⟩

/-!
Reconciliation and report emission (`main`, source lines 229-356) for a
single day.  The two inventories are the dict `target_studies` of the
primary server and the dict `other_studies` mapping a uid to the list of
secondary entries gathered for it (gather order across threads is
abstracted as the given list order; no claim depends on it).  Python
sets are modelled as duplicate-free lists; where the source iterates a
set, a canonical first-occurrence order is used, which is sound because
every property claimed is order-independent.
-/

/-- Command-line filter configuration: argparse gives each of these a
non-empty list, defaulting to `["NONE"]`. -/
structure Args where
  modality : List String
  exclude : List String
deriving DecidableEq, Repr

/-- One output CSV data row (source header at lines 279-290). -/
structure Row where
  StudyDate : String
  StudyInstanceUID : String
  AccessionNumber : String
  SeriesCount : Int
  ImagesCount : Int
  Modality : String
  SourceServerAET : String
  MissingSeries : String
deriving DecidableEq, Repr

/-- Code-point comparison of char lists, the order Python sorted() uses
on strings. -/
def charListLe : List Char → List Char → Bool
  | [], _ => true
  | _ :: _, [] => false
  | a :: as, b :: bs =>
    if a.val < b.val then true
    else if b.val < a.val then false
    else charListLe as bs

/-- String comparison for sorting modality codes. -/
def strLeB (a b : String) : Bool :=
  charListLe a.data b.data

/-- Insertion step of the sort. -/
def insertStr (x : String) : List String → List String
  | [] => [x]
  | y :: ys => if strLeB x y then x :: y :: ys else y :: insertStr x ys

/-- Ascending insertion sort of strings, matching Python sorted(). -/
def sortStrs : List String → List String
  | [] => []
  | x :: xs => insertStr x (sortStrs xs)

/-- Upper-cased de-duplicated modality codes: Python set(m.upper() ...).
List.dedup keeps one occurrence of each element; only the underlying set
matters downstream. -/
def upperDedup (ms : List String) : List String :=
  (ms.map pyUpper).dedup

/-- Sorted, comma-joined, upper-cased, de-duplicated modality string, as
in join(sorted(set(m.upper() ...))). -/
def modalityJoin (ms : List String) : String :=
  String.intercalate "," (sortStrs (upperDedup ms))

/-- First-occurrence de-duplication, the key order of an insertion-
ordered Python dict. -/
def firstOcc (l : List String) : List String :=
  l.foldl (fun acc x => if acc.contains x then acc else acc ++ [x]) []

/-- Python dict membership (`uid in d`) for the dict model. -/
def dictHas {α : Type} (l : List (String × α)) (k : String) : Bool :=
  (dictGet l k).isSome

/-- Universe of study uids of the day: union of the keys of the primary
and secondary inventories (source line 246), in first-occurrence order. -/
def allUids (tgt : List (String × StudyEntry))
    (oth : List (String × List StudyEntry)) : List String :=
  firstOcc (tgt.map (fun p => p.1) ++ oth.map (fun p => p.1))

/-- Modalities gathered for one uid across the primary entry and every
secondary entry, upper-cased and de-duplicated (source lines 249-255). -/
def studyModalities (tgt : List (String × StudyEntry))
    (oth : List (String × List StudyEntry)) (uid : String) : List String :=
  upperDedup
    ((match dictGet tgt uid with
      | some st => st.Modalities
      | none => []) ++
     ((dictGet oth uid).getD []).flatMap (fun e => e.Modalities))

/-- Uids of the day surviving `filter_study` (source lines 247-257), in
canonical order. -/
def filteredUids (tgt : List (String × StudyEntry))
    (oth : List (String × List StudyEntry)) (args : Args) : List String :=
  (allUids tgt oth).filter
    (fun uid => filter_study (studyModalities tgt oth uid)
      (some args.modality) (some args.exclude))

/-- Reference series-identifier set of the primary source for one uid
(source lines 261-263); empty when the primary never saw the study. -/
def tgtSeriesSet (tgt : List (String × StudyEntry)) (uid : String) : List String :=
  (match dictGet tgt uid with
   | some st => st.SeriesList
   | none => []).map (fun (s : String × String) => s.1)

/-- Per-series modality test applied inside the missing-series loop
(source lines 268-271).  Note that only the literal `["NONE"]` is
special-cased here; unlike `filter_study` there is no handling of the
`["*"]` include sentinel. -/
def seriesModalityKeep (s_mod : String) (args : Args) : Bool :=
  (args.exclude == ["NONE"] ||
    !((args.exclude.map pyUpper).contains (pyUpper s_mod)))
  && (args.modality == ["NONE"] ||
    (args.modality.map pyUpper).contains (pyUpper s_mod))

/-- Missing-series list for one uid (source lines 259-274): triples
(series uid, series modality, reporting secondary AET), in entry and
series order. -/
def missingFor (tgt : List (String × StudyEntry))
    (oth : List (String × List StudyEntry)) (uid : String) (args : Args) :
    List (String × String × String) :=
  ((dictGet oth uid).getD []).flatMap (fun e =>
    e.SeriesList.filterMap (fun (s : String × String) =>
      if !((tgtSeriesSet tgt uid).contains s.1) && seriesModalityKeep s.2 args then
        some (s.1, s.2, e.SourceServerAET)
      else none))

/-- MissingSeries token for one missing series: seriesUid(modality). -/
def missTok (x : String × String × String) : String :=
  x.1 ++ "(" ++ x.2.1 ++ ")"

/-- Python setdefault(k, []).append(v) on an insertion-ordered dict. -/
def upsertAppend (m : List (String × List String)) (k : String) (v : String) :
    List (String × List String) :=
  if (m.map (fun p => p.1)).contains k then
    m.map (fun p => if p.1 == k then (p.1, p.2 ++ [v]) else p)
  else m ++ [(k, [v])]

/-- The by_srv grouping of missing series by reporting AET (source lines
300-302 and 337-339), an insertion-ordered dict as an association list. -/
def bySrv (miss : List (String × String × String)) : List (String × List String) :=
  miss.foldl (fun m x => upsertAppend m x.2.2 (missTok x)) []

/-- Rows written for one filter-surviving uid (source lines 294-353).
When the primary inventory has the study: one primary-attributed row
with empty MissingSeries if nothing is missing, else one row per entry
of the by_srv grouping; when only secondaries have it: one row per
by_srv entry with blank accession and zero counts, dated with the
processing day. -/
def rowsForUid (tgt : List (String × StudyEntry))
    (oth : List (String × List StudyEntry)) (args : Args)
    (dateStr : String) (uid : String) : List Row :=
  match dictGet tgt uid with
  | some st =>
    let mods := modalityJoin st.Modalities
    let miss := missingFor tgt oth uid args
    if miss.isEmpty then
      [{ StudyDate := st.StudyDate.getD "", StudyInstanceUID := uid,
         AccessionNumber := st.AccessionNumber.getD "",
         SeriesCount := st.SeriesCount, ImagesCount := st.ImagesCount,
         Modality := mods, SourceServerAET := st.SourceServerAET,
         MissingSeries := "" }]
    else
      (bySrv miss).map (fun g =>
        { StudyDate := st.StudyDate.getD "", StudyInstanceUID := uid,
          AccessionNumber := st.AccessionNumber.getD "",
          SeriesCount := st.SeriesCount, ImagesCount := st.ImagesCount,
          Modality := mods, SourceServerAET := g.1,
          MissingSeries := String.intercalate ", " g.2 })
  | none =>
    match dictGet oth uid with
    | some entries =>
      let mods := modalityJoin (entries.flatMap (fun e => e.Modalities))
      let miss := missingFor tgt oth uid args
      (bySrv miss).map (fun g =>
        { StudyDate := dateStr, StudyInstanceUID := uid,
          AccessionNumber := "", SeriesCount := 0, ImagesCount := 0,
          Modality := mods, SourceServerAET := g.1,
          MissingSeries := String.intercalate ", " g.2 })
    | none => []

/-- Data rows written for one day: the filter-surviving uids each emit
their rows (the source iterates a Python set here; order abstracted). -/
def reconcile_day (tgt : List (String × StudyEntry))
    (oth : List (String × List StudyEntry)) (args : Args)
    (dateStr : String) : List Row :=
  (filteredUids tgt oth args).flatMap (fun uid => rowsForUid tgt oth args dateStr uid)

/-!
Structural lemmas about first-occurrence ordering, the by_srv grouping
and the per-uid row emission, shared by several of the claim theorems.
-/

theorem firstOcc_append_singleton (l : List String) (a : String) :
    firstOcc (l ++ [a]) =
      if (firstOcc l).contains a then firstOcc l else firstOcc l ++ [a] := by
  simp [firstOcc, List.foldl_append]

theorem mem_firstOcc (l : List String) : ∀ x : String, x ∈ firstOcc l ↔ x ∈ l := by
  induction l using List.reverseRecOn with
  | nil =>
    intro x
    simp [firstOcc]
  | append_singleton l a ih =>
    intro x
    rw [firstOcc_append_singleton]
    by_cases h : (firstOcc l).contains a = true
    · rw [if_pos h]
      have ha : a ∈ l := (ih a).1 (by simpa using h)
      simp only [List.mem_append, List.mem_singleton, ih x]
      exact ⟨fun h' => Or.inl h', fun h' => h'.elim id (fun hx => hx ▸ ha)⟩
    · rw [if_neg h]
      simp [ih x]

theorem nodup_firstOcc (l : List String) : (firstOcc l).Nodup := by
  induction l using List.reverseRecOn with
  | nil => simp [firstOcc]
  | append_singleton l a ih =>
    rw [firstOcc_append_singleton]
    by_cases h : (firstOcc l).contains a = true
    · rw [if_pos h]
      exact ih
    · rw [if_neg h]
      have ha : a ∉ firstOcc l := by simpa using h
      simp [List.nodup_append, ih, ha]

/-- Missing-series tokens of one reporting AET, in original order. -/
def tokensFor (a : String) (miss : List (String × String × String)) : List String :=
  (miss.filter (fun x => x.2.2 == a)).map missTok

theorem tokensFor_append (a : String) (m1 m2 : List (String × String × String)) :
    tokensFor a (m1 ++ m2) = tokensFor a m1 ++ tokensFor a m2 := by
  simp [tokensFor, List.filter_append]

theorem tokensFor_eq_nil_of_not_mem (a : String)
    (miss : List (String × String × String))
    (h : a ∉ miss.map (fun x => x.2.2)) : tokensFor a miss = [] := by
  have hf : miss.filter (fun x => x.2.2 == a) = [] := by
    rw [List.filter_eq_nil_iff]
    intro x hx hax
    exact h (List.mem_map.2 ⟨x, hx, by simpa using hax⟩)
  simp [tokensFor, hf]

theorem tokensFor_singleton (a : String) (x : String × String × String) :
    tokensFor a [x] = if x.2.2 == a then [missTok x] else [] := by
  by_cases h : (x.2.2 == a) = true
  · simp [tokensFor, List.filter_cons, h]
  · simp only [Bool.not_eq_true] at h
    simp [tokensFor, List.filter_cons, h]

theorem bySrv_spec (miss : List (String × String × String)) :
    bySrv miss =
      (firstOcc (miss.map (fun x => x.2.2))).map (fun a => (a, tokensFor a miss)) := by
  induction miss using List.reverseRecOn with
  | nil => rfl
  | append_singleton miss x ih =>
    have hstep : bySrv (miss ++ [x]) = upsertAppend (bySrv miss) x.2.2 (missTok x) := by
      simp [bySrv, List.foldl_append]
    have hmapkeys : ((miss ++ [x]).map (fun y => y.2.2)) =
        miss.map (fun y => y.2.2) ++ [x.2.2] := by
      simp
    rw [hstep, ih, hmapkeys, firstOcc_append_singleton]
    have hkeys : (((firstOcc (miss.map (fun y => y.2.2))).map
        (fun a => (a, tokensFor a miss))).map (fun p => p.1)) =
        firstOcc (miss.map (fun y => y.2.2)) := by
      rw [List.map_map]
      exact List.map_id'' (fun a => rfl) _
    by_cases h : (firstOcc (miss.map (fun y => y.2.2))).contains x.2.2 = true
    · rw [if_pos h]
      rw [upsertAppend, if_pos (by rw [hkeys]; exact h)]
      rw [List.map_map]
      apply List.map_congr_left
      intro a ha
      by_cases hak : a = x.2.2
      · simp [Function.comp, tokensFor_append, tokensFor_singleton, hak]
      · have h1 : (a == x.2.2) = false := by
          simpa using hak
        have h2 : (x.2.2 == a) = false := by
          simpa using Ne.symm hak
        simp [Function.comp, tokensFor_append, tokensFor_singleton, h1, h2]
    · rw [if_neg h]
      rw [upsertAppend, if_neg (by rw [hkeys]; exact h)]
      rw [List.map_append]
      congr 1
      · apply List.map_congr_left
        intro a ha
        have hax : a ≠ x.2.2 := by
          intro hc
          apply h
          rw [← hc]
          simpa using ha
        have h2 : (x.2.2 == a) = false := by
          simpa using Ne.symm hax
        simp [tokensFor_append, tokensFor_singleton, h2]
      · have hnot : x.2.2 ∉ miss.map (fun y => y.2.2) := by
          intro hc
          apply h
          simpa using (mem_firstOcc (miss.map (fun y => y.2.2)) x.2.2).2 hc
        rw [List.map_cons, List.map_nil]
        rw [tokensFor_append, tokensFor_eq_nil_of_not_mem _ _ hnot, tokensFor_singleton]
        simp

theorem rowsForUid_sid (tgt : List (String × StudyEntry))
    (oth : List (String × List StudyEntry)) (args : Args) (dateStr uid : String) :
    ∀ r ∈ rowsForUid tgt oth args dateStr uid, r.StudyInstanceUID = uid := by
  intro r hr
  unfold rowsForUid at hr
  cases h1 : dictGet tgt uid with
  | some st =>
    rw [h1] at hr
    by_cases hm : (missingFor tgt oth uid args).isEmpty
    · simp only [hm, if_true, List.mem_singleton] at hr
      subst hr
      rfl
    · simp only [hm, Bool.false_eq_true, if_false, List.mem_map] at hr
      rcases hr with ⟨g, hg, rfl⟩
      rfl
  | none =>
    rw [h1] at hr
    cases h2 : dictGet oth uid with
    | some entries =>
      rw [h2] at hr
      simp only [List.mem_map] at hr
      rcases hr with ⟨g, hg, rfl⟩
      rfl
    | none =>
      rw [h2] at hr
      cases hr

theorem flatMap_filter_sid (f : String → List Row) (l : List String) (u : String)
    (hnd : l.Nodup) (hu : u ∈ l)
    (hsid : ∀ v ∈ l, ∀ r ∈ f v, r.StudyInstanceUID = v) :
    (l.flatMap f).filter (fun r => r.StudyInstanceUID == u) = f u := by
  induction l with
  | nil => cases hu
  | cons v l ih =>
    rw [List.flatMap_cons, List.filter_append]
    rcases List.mem_cons.1 hu with rfl | hu2
    · have h1 : (f u).filter (fun r => r.StudyInstanceUID == u) = f u := by
        rw [List.filter_eq_self]
        intro r hr
        simpa using hsid u (List.mem_cons_self _ _) r hr
      have hnotin : u ∉ l := (List.nodup_cons.1 hnd).1
      have h2 : (l.flatMap f).filter (fun r => r.StudyInstanceUID == u) = [] := by
        rw [List.filter_eq_nil_iff]
        intro r hr
        rcases List.mem_flatMap.1 hr with ⟨w, hw, hrw⟩
        have hs := hsid w (List.mem_cons_of_mem _ hw) r hrw
        simp only [hs, beq_iff_eq]
        intro hc
        exact hnotin (hc ▸ hw)
      rw [h1, h2, List.append_nil]
    · have hvu : v ≠ u := by
        intro hc
        subst hc
        exact (List.nodup_cons.1 hnd).1 hu2
      have h1 : (f v).filter (fun r => r.StudyInstanceUID == u) = [] := by
        rw [List.filter_eq_nil_iff]
        intro r hr
        have hs := hsid v (List.mem_cons_self _ _) r hr
        simp [hs, hvu]
      rw [h1, List.nil_append]
      exact ih (List.nodup_cons.1 hnd).2 hu2
        (fun w hw => hsid w (List.mem_cons_of_mem _ hw))

theorem mem_keys_of_dictGet_eq_some {α : Type} (l : List (String × α)) (k : String)
    (v : α) (h : dictGet l k = some v) : k ∈ l.map (fun p => p.1) := by
  unfold dictGet at h
  cases hL : (l.filter (fun p => p.1 == k)).getLast? with
  | none =>
    rw [hL] at h
    cases h
  | some p =>
    have hp := List.mem_of_getLast?_eq_some hL
    have h1 : p ∈ l := (List.mem_filter.1 hp).1
    have h2 : p.1 = k := by simpa using (List.mem_filter.1 hp).2
    exact h2 ▸ List.mem_map.2 ⟨p, h1, rfl⟩

theorem filteredUids_nodup (tgt : List (String × StudyEntry))
    (oth : List (String × List StudyEntry)) (args : Args) :
    (filteredUids tgt oth args).Nodup :=
  List.Nodup.filter _ (nodup_firstOcc _)

theorem mem_allUids_of_tgt (tgt : List (String × StudyEntry))
    (oth : List (String × List StudyEntry)) (uid : String) (st : StudyEntry)
    (h : dictGet tgt uid = some st) : uid ∈ allUids tgt oth := by
  rw [allUids, mem_firstOcc]
  exact List.mem_append.2 (Or.inl (mem_keys_of_dictGet_eq_some _ _ _ h))

theorem mem_allUids_of_oth (tgt : List (String × StudyEntry))
    (oth : List (String × List StudyEntry)) (uid : String)
    (entries : List StudyEntry)
    (h : dictGet oth uid = some entries) : uid ∈ allUids tgt oth := by
  rw [allUids, mem_firstOcc]
  exact List.mem_append.2 (Or.inr (mem_keys_of_dictGet_eq_some _ _ _ h))

theorem mem_filteredUids (tgt : List (String × StudyEntry))
    (oth : List (String × List StudyEntry)) (args : Args) (uid : String) :
    uid ∈ filteredUids tgt oth args ↔
      uid ∈ allUids tgt oth ∧
      filter_study (studyModalities tgt oth uid)
        (some args.modality) (some args.exclude) = true := by
  simp [filteredUids, List.mem_filter]

theorem reconcile_day_rows_of_mem (tgt : List (String × StudyEntry))
    (oth : List (String × List StudyEntry)) (args : Args) (dateStr uid : String)
    (h : uid ∈ filteredUids tgt oth args) :
    (reconcile_day tgt oth args dateStr).filter
      (fun r => r.StudyInstanceUID == uid) = rowsForUid tgt oth args dateStr uid := by
  exact flatMap_filter_sid _ _ _ (filteredUids_nodup tgt oth args) h
    (fun v _ r hr => rowsForUid_sid tgt oth args dateStr v r hr)

/-- Rows of the day output whose StudyInstanceUID column equals uid. -/
def rowsOut (tgt : List (String × StudyEntry))
    (oth : List (String × List StudyEntry)) (args : Args)
    (dateStr uid : String) : List Row :=
  (reconcile_day tgt oth args dateStr).filter (fun r => r.StudyInstanceUID == uid)

/-- Primary-side entry of the concrete two-source scenario. -/
def entC3P : StudyEntry :=
  { SeriesCount := 1, ImagesCount := 1, SeriesList := [("s1", "CT")],
    StudyDate := some "20240101", AccessionNumber := some "A1",
    Modalities := ["CT"], SourceServerAET := "P" }

/-- Secondary-side entry of the concrete two-source scenario. -/
def entC3Q : StudyEntry :=
  { SeriesCount := 2, ImagesCount := 2, SeriesList := [("s1", "CT"), ("s3", "MR")],
    StudyDate := some "20240101", AccessionNumber := some "A1",
    Modalities := ["CT", "MR"], SourceServerAET := "Q" }

/-- Concrete primary inventory: study S with series s1. -/
def tgtC3 : List (String × StudyEntry) := [("S", entC3P)]

/-- Concrete secondary inventories: server Q reports S with s1 and s3. -/
def othC3 : List (String × List StudyEntry) := [("S", [entC3Q])]

/-- Default filters: include NONE, exclude NONE. -/
def argsNone : Args := ⟨["NONE"], ["NONE"]⟩

/-- Include-all sentinel star on the include side, exclude NONE. -/
def argsStar : Args := ⟨["*"], ["NONE"]⟩

/-- Claim C7: a series whose identifier appears in the primary series
list of the study is never recorded as missing, whatever modality either
side attached to it: the comparison is exact membership of the series
identifier in the primary reference set. -/
theorem c7_primary_series_never_missing (tgt : List (String × StudyEntry))
    (oth : List (String × List StudyEntry)) (args : Args) (uid s_uid : String)
    (h : s_uid ∈ tgtSeriesSet tgt uid) :
    ∀ s_mod aet : String, (s_uid, s_mod, aet) ∉ missingFor tgt oth uid args := by
  intro s_mod aet hmem
  unfold missingFor at hmem
  rcases List.mem_flatMap.1 hmem with ⟨e, he, hser⟩
  rcases List.mem_filterMap.1 hser with ⟨s, hs, hcond⟩
  by_cases hc : (!((tgtSeriesSet tgt uid).contains s.1)
      && seriesModalityKeep s.2 args) = true
  · rw [if_pos hc] at hcond
    injection hcond with hpair
    have h1 : s.1 = s_uid := congrArg Prod.fst hpair
    rw [Bool.and_eq_true] at hc
    have h2 : ((tgtSeriesSet tgt uid).contains s.1) = false := by
      simpa using hc.1
    rw [h1] at h2
    have h3 : s_uid ∉ tgtSeriesSet tgt uid := by
      simpa using h2
    exact h3 h
  · rw [if_neg hc] at hcond
    cases hcond

/-- Witness for C7 at a concrete input: s1 is on the primary, so it is
not missing even when the secondary calls it MR. -/
theorem c7_primary_series_never_missing_witness :
    ("s1", "MR", "Q") ∉ missingFor tgtC3 othC3 "S" argsNone :=
  c7_primary_series_never_missing tgtC3 othC3 argsNone "S" "s1" (by decide) "MR" "Q"

theorem seriesModalityKeep_iff (s_mod : String) (args : Args) :
    seriesModalityKeep s_mod args = true ↔
      (args.exclude = ["NONE"] ∨ pyUpper s_mod ∉ args.exclude.map pyUpper)
      ∧ (args.modality = ["NONE"] ∨ pyUpper s_mod ∈ args.modality.map pyUpper) := by
  simp [seriesModalityKeep, Bool.or_eq_true, Bool.and_eq_true]

theorem mem_missingFor_iff (tgt : List (String × StudyEntry))
    (oth : List (String × List StudyEntry)) (uid : String) (args : Args)
    (s_uid s_mod aet : String) :
    (s_uid, s_mod, aet) ∈ missingFor tgt oth uid args ↔
      (∃ e, e ∈ (dictGet oth uid).getD [] ∧ e.SourceServerAET = aet ∧
        (s_uid, s_mod) ∈ e.SeriesList)
      ∧ s_uid ∉ tgtSeriesSet tgt uid
      ∧ seriesModalityKeep s_mod args = true := by
  unfold missingFor
  rw [List.mem_flatMap]
  constructor
  · rintro ⟨e, he, hmem⟩
    rcases List.mem_filterMap.1 hmem with ⟨s, hs, hcond⟩
    by_cases hc : (!((tgtSeriesSet tgt uid).contains s.1)
        && seriesModalityKeep s.2 args) = true
    · rw [if_pos hc] at hcond
      injection hcond with hpair
      obtain ⟨hp1, hp2, hp3⟩ : s.1 = s_uid ∧ s.2 = s_mod ∧ e.SourceServerAET = aet := by
        simpa [Prod.ext_iff] using hpair
      rw [Bool.and_eq_true] at hc
      refine ⟨⟨e, he, hp3, ?_⟩, ?_, ?_⟩
      · rw [← hp1, ← hp2]
        exact hs
      · rw [← hp1]
        simpa using hc.1
      · rw [← hp2]
        exact hc.2
    · rw [if_neg hc] at hcond
      cases hcond
  · rintro ⟨⟨e, he, hp3, hser⟩, hnot, hkeep⟩
    refine ⟨e, he, List.mem_filterMap.2 ⟨(s_uid, s_mod), hser, ?_⟩⟩
    rw [if_pos (by simp [hkeep, hnot])]
    rw [hp3]

/-- Claim C2 (amended): for a study passing the study-level filter, a
series reported by a secondary entry is recorded as missing iff its
identifier is outside the primary reference set and its own modality
passes the inline per-series test, which special-cases only the
literal NONE sentinel on each side; unlike the study-level
`filter_study`, the star include sentinel is NOT honored here. -/
theorem c2_series_missing_rule (tgt : List (String × StudyEntry))
    (oth : List (String × List StudyEntry)) (args : Args) (uid : String)
    (_hf : filter_study (studyModalities tgt oth uid)
      (some args.modality) (some args.exclude) = true)
    (s_uid s_mod aet : String) :
    (s_uid, s_mod, aet) ∈ missingFor tgt oth uid args ↔
      (∃ e, e ∈ (dictGet oth uid).getD [] ∧ e.SourceServerAET = aet ∧
        (s_uid, s_mod) ∈ e.SeriesList)
      ∧ s_uid ∉ tgtSeriesSet tgt uid
      ∧ (args.exclude = ["NONE"] ∨ pyUpper s_mod ∉ args.exclude.map pyUpper)
      ∧ (args.modality = ["NONE"] ∨ pyUpper s_mod ∈ args.modality.map pyUpper) := by
  rw [mem_missingFor_iff tgt oth uid args s_uid s_mod aet]
  rw [seriesModalityKeep_iff]

/-- Witness for C2 (amended) at a concrete input. -/
theorem c2_series_missing_rule_witness :
    (("s3", "MR", "Q") ∈ missingFor tgtC3 othC3 "S" argsNone ↔
      (∃ e, e ∈ (dictGet othC3 "S").getD [] ∧ e.SourceServerAET = "Q" ∧
        ("s3", "MR") ∈ e.SeriesList)
      ∧ "s3" ∉ tgtSeriesSet tgtC3 "S"
      ∧ (argsNone.exclude = ["NONE"] ∨
          pyUpper "MR" ∉ argsNone.exclude.map pyUpper)
      ∧ (argsNone.modality = ["NONE"] ∨
          pyUpper "MR" ∈ argsNone.modality.map pyUpper)) :=
  c2_series_missing_rule tgtC3 othC3 argsNone "S" (by decide) "s3" "MR" "Q"

/-- Counterexample to claim C2 as stated: with include star and exclude
NONE, the study passes the study-level filter and the lone series
modality MR itself satisfies `filter_study` (star means include-all
there), the series s3 is reported by the secondary and is outside the
primary reference set, yet it is not recorded as missing, because the
inline per-series test does not honor the star sentinel. -/
theorem c2_counterexample :
    filter_study (studyModalities tgtC3 othC3 "S")
      (some argsStar.modality) (some argsStar.exclude) = true
    ∧ filter_study ["MR"] (some argsStar.modality) (some argsStar.exclude) = true
    ∧ ("s3", "MR") ∈ ((dictGet othC3 "S").getD []).flatMap (fun e => e.SeriesList)
    ∧ "s3" ∉ tgtSeriesSet tgtC3 "S"
    ∧ missingFor tgtC3 othC3 "S" argsStar = []
    ∧ (reconcile_day tgtC3 othC3 argsStar "20240101").map
        (fun r => r.MissingSeries) = [""] := by
  decide

/-- Claim C5: for a filter-surviving study present in the primary
inventory, the day output carries: when nothing is missing, exactly one
row, attributed to the entry of the primary source, with empty
MissingSeries; when something is missing, exactly one row per distinct
secondary AET contributing missing series (in first-occurrence order,
without repetition), each row carrying the primary metadata, that AET in
the source column, and only that AET missing-series tokens, joined by
comma-space. -/
theorem c5_row_emission (tgt : List (String × StudyEntry))
    (oth : List (String × List StudyEntry)) (args : Args) (dateStr uid : String)
    (st : StudyEntry)
    (h1 : dictGet tgt uid = some st)
    (h2 : filter_study (studyModalities tgt oth uid)
      (some args.modality) (some args.exclude) = true) :
    (missingFor tgt oth uid args = [] →
      rowsOut tgt oth args dateStr uid =
        [{ StudyDate := st.StudyDate.getD "", StudyInstanceUID := uid,
           AccessionNumber := st.AccessionNumber.getD "",
           SeriesCount := st.SeriesCount, ImagesCount := st.ImagesCount,
           Modality := modalityJoin st.Modalities,
           SourceServerAET := st.SourceServerAET, MissingSeries := "" }])
    ∧ (missingFor tgt oth uid args ≠ [] →
      ((rowsOut tgt oth args dateStr uid).map (fun r => r.SourceServerAET) =
        firstOcc ((missingFor tgt oth uid args).map (fun x => x.2.2)))
      ∧ (∀ r ∈ rowsOut tgt oth args dateStr uid,
          r.MissingSeries = String.intercalate ", "
            (tokensFor r.SourceServerAET (missingFor tgt oth uid args))
          ∧ r.StudyDate = st.StudyDate.getD ""
          ∧ r.AccessionNumber = st.AccessionNumber.getD ""
          ∧ r.SeriesCount = st.SeriesCount ∧ r.ImagesCount = st.ImagesCount)
      ∧ ((rowsOut tgt oth args dateStr uid).map (fun r => r.SourceServerAET)).Nodup
      ∧ (∀ a : String,
          a ∈ (rowsOut tgt oth args dateStr uid).map (fun r => r.SourceServerAET) ↔
          a ∈ (missingFor tgt oth uid args).map (fun x => x.2.2))) := by
  have hfm : uid ∈ filteredUids tgt oth args :=
    (mem_filteredUids tgt oth args uid).2 ⟨mem_allUids_of_tgt tgt oth uid st h1, h2⟩
  have hrows : rowsOut tgt oth args dateStr uid = rowsForUid tgt oth args dateStr uid :=
    reconcile_day_rows_of_mem tgt oth args dateStr uid hfm
  constructor
  · intro hm
    rw [hrows]
    unfold rowsForUid
    rw [h1]
    simp only [hm, List.isEmpty_nil, if_true]
  · intro hm
    have hm2 : (missingFor tgt oth uid args).isEmpty = false := by
      cases hmE : missingFor tgt oth uid args with
      | nil => exact absurd hmE hm
      | cons a l => rfl
    have hrw : rowsOut tgt oth args dateStr uid =
        (bySrv (missingFor tgt oth uid args)).map
          (fun (g : String × List String) =>
          ({ StudyDate := st.StudyDate.getD "", StudyInstanceUID := uid,
             AccessionNumber := st.AccessionNumber.getD "",
             SeriesCount := st.SeriesCount, ImagesCount := st.ImagesCount,
             Modality := modalityJoin st.Modalities, SourceServerAET := g.1,
             MissingSeries := String.intercalate ", " g.2 } : Row)) := by
      rw [hrows]
      unfold rowsForUid
      rw [h1]
      simp only [hm2, Bool.false_eq_true, if_false]
    have hmap : (rowsOut tgt oth args dateStr uid).map (fun r => r.SourceServerAET) =
        firstOcc ((missingFor tgt oth uid args).map (fun x => x.2.2)) := by
      rw [hrw, bySrv_spec, List.map_map, List.map_map]
      exact List.map_id'' (fun a => rfl) _
    refine ⟨hmap, ?_, ?_, ?_⟩
    · intro r hrmem
      rw [hrw, bySrv_spec, List.map_map] at hrmem
      rcases List.mem_map.1 hrmem with ⟨a, ha, rfl⟩
      exact ⟨rfl, rfl, rfl, rfl, rfl⟩
    · rw [hmap]
      exact nodup_firstOcc _
    · intro a
      rw [hmap]
      exact mem_firstOcc _ a

/-- Witness for C5 exercising both branches: without a secondary report
nothing is missing and the single primary row appears; with the
secondary reporting s3, the row set is grouped per contributing AET. -/
theorem c5_row_emission_witness :
    rowsOut tgtC3 [] argsNone "20240101" "S" =
      [{ StudyDate := "20240101", StudyInstanceUID := "S",
         AccessionNumber := "A1", SeriesCount := 1, ImagesCount := 1,
         Modality := "CT", SourceServerAET := "P", MissingSeries := "" }]
    ∧ (rowsOut tgtC3 othC3 argsNone "20240101" "S").map
        (fun r => r.SourceServerAET) =
      firstOcc ((missingFor tgtC3 othC3 "S" argsNone).map (fun x => x.2.2)) :=
  ⟨(c5_row_emission tgtC3 [] argsNone "20240101" "S" entC3P (by decide)
      (by decide)).1 (by decide),
   ((c5_row_emission tgtC3 othC3 argsNone "20240101" "S" entC3P (by decide)
      (by decide)).2 (by decide)).1⟩

/-- Claim C6 (amended): a filter-surviving study absent from the primary
inventory emits one row per distinct secondary AET contributing missing
series, each row carrying the processing date, a blank accession number,
zero series and image counts and the secondary modality union — and
hence NO row at all when no secondary contributes any missing series. -/
theorem c6_secondary_only_rows (tgt : List (String × StudyEntry))
    (oth : List (String × List StudyEntry)) (args : Args) (dateStr uid : String)
    (entries : List StudyEntry)
    (h1 : dictGet tgt uid = none)
    (h2 : dictGet oth uid = some entries)
    (h3 : filter_study (studyModalities tgt oth uid)
      (some args.modality) (some args.exclude) = true) :
    ((rowsOut tgt oth args dateStr uid).map (fun r => r.SourceServerAET) =
      firstOcc ((missingFor tgt oth uid args).map (fun x => x.2.2)))
    ∧ (∀ r ∈ rowsOut tgt oth args dateStr uid,
        r.StudyDate = dateStr ∧ r.AccessionNumber = "" ∧
        r.SeriesCount = 0 ∧ r.ImagesCount = 0 ∧
        r.Modality = modalityJoin (entries.flatMap (fun e => e.Modalities)) ∧
        r.MissingSeries = String.intercalate ", "
          (tokensFor r.SourceServerAET (missingFor tgt oth uid args)))
    ∧ (missingFor tgt oth uid args = [] →
        rowsOut tgt oth args dateStr uid = []) := by
  have hfm : uid ∈ filteredUids tgt oth args :=
    (mem_filteredUids tgt oth args uid).2
      ⟨mem_allUids_of_oth tgt oth uid entries h2, h3⟩
  have hrows : rowsOut tgt oth args dateStr uid =
      rowsForUid tgt oth args dateStr uid :=
    reconcile_day_rows_of_mem tgt oth args dateStr uid hfm
  have hrw : rowsOut tgt oth args dateStr uid =
      (bySrv (missingFor tgt oth uid args)).map
        (fun (g : String × List String) =>
        ({ StudyDate := dateStr, StudyInstanceUID := uid,
           AccessionNumber := "", SeriesCount := 0, ImagesCount := 0,
           Modality := modalityJoin (entries.flatMap (fun e => e.Modalities)),
           SourceServerAET := g.1,
           MissingSeries := String.intercalate ", " g.2 } : Row)) := by
    rw [hrows]
    unfold rowsForUid
    rw [h1, h2]
  refine ⟨?_, ?_, ?_⟩
  · rw [hrw, bySrv_spec, List.map_map, List.map_map]
    exact List.map_id'' (fun a => rfl) _
  · intro r hrmem
    rw [hrw, bySrv_spec, List.map_map] at hrmem
    rcases List.mem_map.1 hrmem with ⟨a, ha, rfl⟩
    exact ⟨rfl, rfl, rfl, rfl, rfl, rfl⟩
  · intro hm
    rw [hrw, hm]
    rfl

/-- Secondary entry reporting study S2 with an empty series list. -/
def entC6 : StudyEntry :=
  { SeriesCount := 1, ImagesCount := 5, SeriesList := [],
    StudyDate := some "20240102", AccessionNumber := some "A2",
    Modalities := ["US"], SourceServerAET := "Q" }

/-- Secondary inventories reporting only S2, with no series. -/
def othC6 : List (String × List StudyEntry) := [("S2", [entC6])]

/-- Counterexample to claim C6 as stated: study S2 is reported only by a
secondary source and passes the filter, yet the day output is EMPTY (not
at least one row), because the secondary series list is empty, so no
missing series exists and the secondary-only emission loop writes one
row per missing-series group only. -/
theorem c6_counterexample :
    "S2" ∈ allUids [] othC6
    ∧ filter_study (studyModalities [] othC6 "S2")
        (some argsNone.modality) (some argsNone.exclude) = true
    ∧ reconcile_day [] othC6 argsNone "20240102" = [] := by
  decide

/-- Witness for C6 (amended): with a secondary contributing two missing
series the rows group per AET; with an empty secondary series list no
row is emitted. -/
theorem c6_secondary_only_rows_witness :
    ((rowsOut [] othC3 argsNone "20240103" "S").map (fun r => r.SourceServerAET) =
      firstOcc ((missingFor [] othC3 "S" argsNone).map (fun x => x.2.2)))
    ∧ rowsOut [] othC6 argsNone "20240102" "S2" = [] :=
  ⟨(c6_secondary_only_rows [] othC3 argsNone "20240103" "S" [entC3Q]
      (by decide) (by decide) (by decide)).1,
   (c6_secondary_only_rows [] othC6 argsNone "20240102" "S2" [entC6]
      (by decide) (by decide) (by decide)).2.2 (by decide)⟩

/-- Modality union across every source that reported the study, in the
words of the specification for the Modality column: upper-cased,
de-duplicated, sorted, comma-joined union of primary and secondary
modality codes. -/
def specModalityUnion (tgt : List (String × StudyEntry))
    (oth : List (String × List StudyEntry)) (uid : String) : String :=
  modalityJoin
    ((match dictGet tgt uid with
      | some st => st.Modalities
      | none => []) ++
     ((dictGet oth uid).getD []).flatMap (fun e => e.Modalities))

/-- Claim C3 (amended): the Modality column of every output row is built
from the primary entry modalities ALONE when the study exists in the
primary inventory (sorted, upper-cased, de-duplicated, comma-joined);
only for studies the primary never reported is it the union over the
secondary entries. -/
theorem c3_modality_column (tgt : List (String × StudyEntry))
    (oth : List (String × List StudyEntry)) (args : Args) (dateStr : String) :
    ∀ r ∈ reconcile_day tgt oth args dateStr,
      (∀ st : StudyEntry, dictGet tgt r.StudyInstanceUID = some st →
        r.Modality = modalityJoin st.Modalities)
      ∧ (dictGet tgt r.StudyInstanceUID = none →
        ∀ entries : List StudyEntry,
          dictGet oth r.StudyInstanceUID = some entries →
          r.Modality = modalityJoin (entries.flatMap (fun e => e.Modalities))) := by
  intro r hr
  rcases List.mem_flatMap.1 hr with ⟨uid, hu, hrw⟩
  have hsid := rowsForUid_sid tgt oth args dateStr uid r hrw
  rw [hsid]
  constructor
  · intro st hst
    unfold rowsForUid at hrw
    rw [hst] at hrw
    by_cases hm : (missingFor tgt oth uid args).isEmpty
    · simp only [hm, if_true, List.mem_singleton] at hrw
      subst hrw
      rfl
    · simp only [hm, Bool.false_eq_true, if_false, List.mem_map] at hrw
      rcases hrw with ⟨g, hg, rfl⟩
      rfl
  · intro hnone entries hent
    unfold rowsForUid at hrw
    rw [hnone, hent] at hrw
    simp only [List.mem_map] at hrw
    rcases hrw with ⟨g, hg, rfl⟩
    rfl

/-- Counterexample to claim C3 as stated: the primary reports S with
ModalitiesInStudy CT while the secondary reports CT and MR; the emitted
row shows CT only, not the cross-source union CT,MR. -/
theorem c3_counterexample :
    (reconcile_day tgtC3 othC3 argsNone "20240101").map (fun r => r.Modality) =
      ["CT"]
    ∧ specModalityUnion tgtC3 othC3 "S" = "CT,MR"
    ∧ ("CT" : String) ≠ "CT,MR" := by
  decide

/-- The single row of the concrete two-source scenario. -/
def rowC3 : Row :=
  { StudyDate := "20240101", StudyInstanceUID := "S", AccessionNumber := "A1",
    SeriesCount := 1, ImagesCount := 1, Modality := "CT",
    SourceServerAET := "Q", MissingSeries := "s3(MR)" }

/-- The single row of the same scenario without the primary inventory. -/
def rowC3b : Row :=
  { StudyDate := "20240104", StudyInstanceUID := "S", AccessionNumber := "",
    SeriesCount := 0, ImagesCount := 0, Modality := "CT,MR",
    SourceServerAET := "Q", MissingSeries := "s1(CT), s3(MR)" }

/-- Witness for C3 (amended) at concrete rows of both kinds. -/
theorem c3_modality_column_witness :
    rowC3.Modality = modalityJoin entC3P.Modalities
    ∧ rowC3b.Modality = modalityJoin ([entC3Q].flatMap (fun e => e.Modalities)) :=
  ⟨(c3_modality_column tgtC3 othC3 argsNone "20240101" rowC3 (by decide)).1
      entC3P (by decide),
   (c3_modality_column [] othC3 argsNone "20240104" rowC3b (by decide)).2
      (by decide) [entC3Q] (by decide)⟩

/-- Witness for C4: an unsaturated probe is returned unchanged as the
single query of the day; a saturated probe leads to the seven fixed
queries; second 50000 of the day lies in exactly one sub-window. -/
theorem c4_partitioner_witness :
    query_server_with_4h_blocks (fun _ => ([] : List Nat)) =
      ([QWindow.wholeDay], [])
    ∧ (query_server_with_4h_blocks (fun _ => List.replicate 500 (0 : Nat))).1 =
      [QWindow.wholeDay, QWindow.timed 0 14399, QWindow.timed 14400 28799,
       QWindow.timed 28800 43199, QWindow.timed 43200 57599,
       QWindow.timed 57600 71999, QWindow.timed 72000 86399]
    ∧ (∃! i : Nat, i < 6 ∧ (blockBounds i).1 ≤ 50000 ∧ 50000 ≤ (blockBounds i).2) :=
  ⟨(c4_partitioner (fun _ => ([] : List Nat))).1 (by decide),
   ((c4_partitioner (fun _ => List.replicate 500 (0 : Nat))).2.1
      (by rw [List.length_replicate])).1,
   (c4_partitioner (fun _ => ([] : List Nat))).2.2 50000 (by decide)⟩
